import Mathlib

/-!
Shallow embedding of `src/image.js` (react-native-cacheable-image): a React
component that caches remote images on the local filesystem under a key
derived from the image URL, downloading on a cache miss when the network is
available.  The definitions mirror the JavaScript source; the theorems settle
the specification claims about it.
-/

namespace CacheableImage

/-- Component state, mirroring `this.state` as initialised in the constructor
(src/image.js lines 18–25). -/
structure ComponentState where
  isRemote : Bool
  cachedImagePath : Option String
  downloading : Bool
  cacheable : Bool
  jobId : Option Nat
  networkAvailable : Bool
deriving DecidableEq, Repr

/-- Initial state from the constructor: `networkAvailable` starts `false` and
`cacheable` starts `true` with no cached path. -/
def initialState : ComponentState :=
  { isRemote := false
    cachedImagePath := none
    downloading := false
    cacheable := true
    jobId := none
    networkAvailable := false }

/-- Result of `new URL(uri, null, true)` (url-parse with query parsing turned
on): the components `_processSource` consumes.  The `query` field is the parsed
query object, kept as an association list of decoded name/value pairs. -/
structure ParsedUrl where
  host : String
  pathname : String
  query : List (String × String)
deriving DecidableEq, Repr

/-- Lookup in the parsed query object, as `url.query.hasOwnProperty(k)` plus
`url.query[k]` do.  `List.find?` keeps the first binding of a name, matching
querystringify, which skips a name already present in the result object. -/
def queryLookup (q : List (String × String)) (k : String) : Option String :=
  (q.find? (fun p => p.1 == k)).map Prod.snd

/-- The `useQueryParamsInCacheKey` property: an array of parameter names
(`Array.isArray` branch at line 135), or a boolean (`else if` truthiness test
at line 142; the default is `false`). -/
inductive QueryKeyPolicy where
  | flag (b : Bool)
  | names (l : List String)
deriving DecidableEq, Repr

/-- String JavaScript produces when `String.prototype.concat` coerces a plain
object to text.  With `new URL(uri, null, true)` the `query` property is the
parsed query object, so `cacheable.concat(url.query)` at line 143 appends this
constant rather than the query text. -/
def objectString : String := "[object Object]"

/-- Identity string `cacheable` built at src/image.js lines 134–144: the
pathname, then per policy the values of the listed names present in the query
(in list order), or the coerced query object for a truthy boolean, or nothing. -/
def cacheableString (url : ParsedUrl) (policy : QueryKeyPolicy) : String :=
  match policy with
  | .names l =>
      l.foldl (fun acc k =>
        match queryLookup url.query k with
        | some v => acc ++ v
        | none => acc) url.pathname
  | .flag true => url.pathname ++ objectString
  | .flag false => url.pathname

/-- Suffix of a character list strictly after its last `'.'`, when a dot
occurs. -/
def afterLastDot : List Char → Option (List Char)
  | [] => none
  | c :: rest =>
    match afterLastDot rest with
    | some r => some r
    | none => if c = '.' then some rest else none

/-- Value of `url.pathname.replace(/.*\.(.*)/, '$1')` (the `type` local at
line 147): the substring after the last dot, or the whole string when it has no
dot, where the regex fails to match and `replace` returns its input unchanged.
URL pathnames contain no newline, so the regex dot never has to skip one. -/
def extType (s : String) : String :=
  match afterLastDot s.data with
  | some r => String.mk r
  | none => s

/-! SHA-1 as computed by `crypto-js/sha1` on the identity string, with the
default hex output encoding of `toString()`.  Words are naturals reduced
modulo 2^32. -/

/-- Reduction modulo 2^32. -/
def w32 (n : Nat) : Nat := n % 4294967296

/-- Rotate a 32-bit word left by `b` bits. -/
def rotl (b n : Nat) : Nat := w32 ((n <<< b) ||| (n >>> (32 - b)))

/-- UTF-8 bytes of one code point; crypto-js parses string input as UTF-8. -/
def utf8Bytes (c : Nat) : List Nat :=
  if c < 128 then [c]
  else if c < 2048 then [192 ||| (c >>> 6), 128 ||| (c &&& 63)]
  else if c < 65536 then
    [224 ||| (c >>> 12), 128 ||| ((c >>> 6) &&& 63), 128 ||| (c &&& 63)]
  else
    [240 ||| (c >>> 18), 128 ||| ((c >>> 12) &&& 63),
     128 ||| ((c >>> 6) &&& 63), 128 ||| (c &&& 63)]

/-- UTF-8 byte sequence of a string. -/
def stringBytes (s : String) : List Nat :=
  (s.data.map (fun c => utf8Bytes c.toNat)).foldr (· ++ ·) []

/-- Big-endian rendering of `n` into `count` bytes. -/
def beBytes (count n : Nat) : List Nat :=
  (List.range count).map (fun i => (n >>> (8 * (count - 1 - i))) % 256)

/-- Merkle–Damgård padding: a `0x80` byte, zeros to 56 mod 64, then the bit
length in 8 big-endian bytes. -/
def sha1Padded (msg : List Nat) : List Nat :=
  msg ++ [128] ++ List.replicate ((119 - msg.length % 64) % 64) 0
      ++ beBytes 8 (8 * msg.length)

/-- Helper for `toBlocks`: structural recursion on a fuel bound so that the
kernel can evaluate it; each step consumes at least one byte, so `fuel`
exceeding the length never runs out. -/
def toBlocksAux : Nat → List Nat → List (List Nat)
  | 0, _ => []
  | _, [] => []
  | fuel + 1, a :: rest => ((a :: rest).take 64) :: toBlocksAux fuel (rest.drop 63)

/-- Split the padded message into 64-byte blocks. -/
def toBlocks (l : List Nat) : List (List Nat) := toBlocksAux (l.length + 1) l

/-- Big-endian 32-bit word from four bytes. -/
def beWord (bs : List Nat) : Nat := bs.foldl (fun acc b => acc * 256 + b) 0

/-- The sixteen message words of one block. -/
def blockWords (block : List Nat) : List Nat :=
  (List.range 16).map (fun i => beWord ((block.drop (4 * i)).take 4))

/-- One step of the message-schedule extension. -/
def scheduleStep (acc : List Nat) : List Nat :=
  let n := acc.length
  acc ++ [rotl 1 ((acc.getD (n - 3) 0 ^^^ acc.getD (n - 8) 0) ^^^
                  (acc.getD (n - 14) 0 ^^^ acc.getD (n - 16) 0))]

/-- Extend sixteen message words to eighty. -/
def schedule (ws : List Nat) : List Nat :=
  (List.range 64).foldl (fun a _ => scheduleStep a) ws

/-- Round function selector. -/
def sha1F (i b c d : Nat) : Nat :=
  if i < 20 then (b &&& c) ||| ((b ^^^ 4294967295) &&& d)
  else if i < 40 then (b ^^^ c) ^^^ d
  else if i < 60 then ((b &&& c) ||| (b &&& d)) ||| (c &&& d)
  else (b ^^^ c) ^^^ d

/-- Round constants. -/
def sha1K (i : Nat) : Nat :=
  if i < 20 then 1518500249
  else if i < 40 then 1859775393
  else if i < 60 then 2400959708
  else 3395469782

/-- Chaining state of the compression function. -/
structure Sha1State where
  h0 : Nat
  h1 : Nat
  h2 : Nat
  h3 : Nat
  h4 : Nat
deriving DecidableEq, Repr

/-- One of the eighty rounds, on the working tuple `(a, b, c, d, e)`. -/
def sha1Round (st : Nat × Nat × Nat × Nat × Nat) (iw : Nat × Nat) :
    Nat × Nat × Nat × Nat × Nat :=
  let a := st.1
  let b := st.2.1
  let c := st.2.2.1
  let d := st.2.2.2.1
  let e := st.2.2.2.2
  let t := w32 (rotl 5 a + sha1F iw.1 b c d + e + sha1K iw.1 + iw.2)
  (t, a, rotl 30 b, c, d)

/-- Compress one 64-byte block into the chaining state. -/
def sha1Block (h : Sha1State) (block : List Nat) : Sha1State :=
  let ws := schedule (blockWords block)
  let st := ((List.range 80).zip ws).foldl sha1Round (h.h0, h.h1, h.h2, h.h3, h.h4)
  ⟨w32 (h.h0 + st.1), w32 (h.h1 + st.2.1), w32 (h.h2 + st.2.2.1),
   w32 (h.h3 + st.2.2.2.1), w32 (h.h4 + st.2.2.2.2)⟩

/-- Initial chaining values. -/
def sha1Init : Sha1State := ⟨1732584193, 4023233417, 2562383102, 271733878, 3285377520⟩

/-- Lowercase hex digit for a value below 16. -/
def hexDigit (n : Nat) : Char :=
  if n < 10 then Char.ofNat (48 + n) else Char.ofNat (87 + n)

/-- Eight-digit lowercase hex rendering of a 32-bit word. -/
def hex8 (n : Nat) : String :=
  String.mk ((List.range 8).map (fun i => hexDigit ((n >>> (4 * (7 - i))) % 16)))

/-- Hex digest of a string, as `SHA1(s).toString()` yields in crypto-js. -/
def sha1Hex (s : String) : String :=
  let st := (toBlocks (sha1Padded (stringBytes s))).foldl sha1Block sha1Init
  hex8 st.h0 ++ hex8 st.h1 ++ hex8 st.h2 ++ hex8 st.h3 ++ hex8 st.h4

/-- Cache key computed at src/image.js lines 146–148:
`SHA1(cacheable) + '.' + (type.length < url.pathname.length ? type : '')`. -/
def cacheKeyOf (url : ParsedUrl) (policy : QueryKeyPolicy) : String :=
  let t := extType url.pathname
  sha1Hex (cacheableString url policy) ++ "." ++
    (if t.length < url.pathname.length then t else "")

/-- Split a character list at the first character satisfying `p`: the part
before it, and the remainder starting with it (or empty when none matches). -/
def splitAtFirst (p : Char → Bool) : List Char → List Char × List Char
  | [] => ([], [])
  | c :: rest =>
    if p c then ([], c :: rest)
    else
      let r := splitAtFirst p rest
      (c :: r.1, r.2)

/-- Drop everything through the `://` separating the scheme from the
authority. -/
def dropScheme : List Char → List Char
  | [] => []
  | ':' :: '/' :: '/' :: rest => rest
  | _ :: rest => dropScheme rest

/-- Split a character list on every occurrence of `c`, keeping empty pieces. -/
def splitOnChar (c : Char) : List Char → List (List Char)
  | [] => [[]]
  | x :: rest =>
    if x = c then [] :: splitOnChar c rest
    else
      match splitOnChar c rest with
      | [] => [[x]]
      | h :: t => (x :: h) :: t

/-- Query-object construction of querystringify: split on `&`, a pair is the
part before the first `=` (which must be non-empty) and the part after it.
Percent-decoding is not modelled; the locators in the theorems below use
unescaped ASCII, on which decoding is the identity. -/
def parseQuery (qs : String) : List (String × String) :=
  (splitOnChar '&' qs.data).filterMap (fun part =>
    if part.isEmpty then none
    else
      let kv := splitAtFirst (· = '=') part
      if kv.1.isEmpty then none
      else some (String.mk kv.1, String.mk (kv.2.drop 1)))

/-- Components `new URL(uri, null, true)` yields for an absolute
`scheme://host/path?query` locator: `host` up to the first `/`, `?` or `#`,
`pathname` (with its leading slash) up to `?` or `#`, and the query string
parsed into pairs. -/
def parseUrl (uri : String) : ParsedUrl :=
  let afterScheme := dropScheme uri.data
  let hostRest := splitAtFirst (fun c => c = '/' || c = '?' || c = '#') afterScheme
  let pathRest := splitAtFirst (fun c => c = '?' || c = '#') hostRest.2
  let qs := match pathRest.2 with
    | '?' :: rest => String.mk (splitAtFirst (· = '#') rest).1
    | _ => ""
  ⟨String.mk hostRest.1, String.mk pathRest.1, parseQuery qs⟩

/-- Arguments `_processSource` passes to `checkImageCache` for a remote source
(src/image.js line 150): the original uri, the url host as the cache directory
name, and the derived cache key. -/
def processSourceArgs (policy : QueryKeyPolicy) (uri : String) :
    String × String × String :=
  let url := parseUrl uri
  (uri, url.host, cacheKeyOf url policy)

/-- Outcome of `RNFS.stat(filePath)`: the promise rejects (`missing`, taking
the cache-miss branch at line 63), or resolves with `isFile()` true (`file`)
or false (`dir`). -/
inductive StatResult where
  | missing
  | file
  | dir
deriving DecidableEq, Repr

/-- Resolution of one of the other filesystem or transport promises. -/
inductive IOResult where
  | ok
  | error
deriving DecidableEq, Repr

/-- Filesystem and transport operations issued by `checkImageCache`, in
program order.  `deleteFile p` is an invocation of `_deleteFilePath(p)`;
`setStateP b p` records a `setState({cacheable: b, cachedImagePath: p})`
resolution report. -/
inductive Effect where
  | mkdir (path : String)
  | downloadStart (fromUrl toFile : String)
  | deleteFile (path : String)
  | setStateP (cacheable : Bool) (cachedImagePath : Option String)
deriving DecidableEq, Repr

/-- Whether an effect starts the download transport. -/
def Effect.isDownloadStart : Effect → Bool
  | .downloadStart _ _ => true
  | _ => false

/-- Whether an effect creates a directory. -/
def Effect.isMkdir : Effect → Bool
  | .mkdir _ => true
  | _ => false

/-- Resolutions of the asynchronous operations `checkImageCache` performs: the
stat of the derived path, `RNFS.mkdir`, and the `RNFS.downloadFile` promise. -/
structure CacheEnv where
  stat : StatResult
  mkdirResult : IOResult
  downloadResult : IOResult
deriving DecidableEq, Repr

/-- Truthiness of `this.state.cachedImagePath` in JavaScript: `null` and the
empty string are falsy, any other string is truthy. -/
def jsTruthy : Option String → Bool
  | none => false
  | some p => p != ""

/-- Model of `checkImageCache(imageUri, cachePath, cacheKey)` (src/image.js
lines 51–111): the component state once every promise callback has run, paired
with the effects issued, in order.  When the stat resolves with `isFile()`
false, neither the `then` branch sets any state nor does the `catch` run, so
nothing at all happens.  Line 82 calls `this.deleteFilePath`, a method that
does not exist (the class only defines `_deleteFilePath`), so when the
previous state was cacheable with a truthy path, calling `undefined` throws a
TypeError inside the `mkdir(...).then` callback; the rejection reaches the
`.catch` at line 106, which runs `_deleteFilePath(filePath)` on the new path
and reports `{cacheable: false, cachedImagePath: null}`, and no download ever
starts. -/
def checkImageCache (baseDir : String) (env : CacheEnv) (s : ComponentState)
    (imageUri cachePath cacheKey : String) : ComponentState × List Effect :=
  let dirPath := baseDir ++ "/" ++ cachePath
  let filePath := dirPath ++ "/" ++ cacheKey
  match env.stat with
  | .file =>
      ({s with cacheable := true, cachedImagePath := some filePath},
       [.setStateP true (some filePath)])
  | .dir => (s, [])
  | .missing =>
      if !s.networkAvailable then
        ({s with cacheable := false, cachedImagePath := none},
         [.setStateP false none])
      else
        match env.mkdirResult with
        | .error =>
            ({s with cacheable := false, cachedImagePath := none},
             [.mkdir dirPath, .deleteFile filePath, .setStateP false none])
        | .ok =>
            if s.cacheable && jsTruthy s.cachedImagePath then
              ({s with cacheable := false, cachedImagePath := none},
               [.mkdir dirPath, .deleteFile filePath, .setStateP false none])
            else
              match env.downloadResult with
              | .ok =>
                  ({s with cacheable := true, cachedImagePath := some filePath},
                   [.mkdir dirPath, .downloadStart imageUri filePath,
                    .setStateP true (some filePath)])
              | .error =>
                  ({s with cacheable := false, cachedImagePath := none},
                   [.mkdir dirPath, .downloadStart imageUri filePath,
                    .deleteFile filePath, .setStateP false none])

/-- Model of `_deleteFilePath(filePath)` (src/image.js lines 113–123) acting
on a filesystem given as the set of present paths.  `unlinkResult` resolves
the `RNFS.unlink` promise.  Returns the filesystem afterwards and whether an
error escapes to the caller: the existence check comes first, no unlink is
attempted for an absent file, and the `.catch(err => {})` swallows unlink
failures. -/
def deleteFilePathFs (fs : String → Bool) (unlinkResult : IOResult)
    (filePath : String) : (String → Bool) × Bool :=
  if fs filePath then
    match unlinkResult with
    | .ok => (fun p => if p = filePath then false else fs p, false)
    | .error => (fs, false)
  else (fs, false)

/-- Progress payload delivered by `RNFS.downloadFile` callbacks.  JavaScript
numbers are modelled as rationals: the division at line 46 is exact on them
for integer byte counts, and `0 / 0` (`NaN` in JavaScript, `0` here) compares
unequal to `1` under both semantics. -/
structure ProgressInfo where
  bytesWritten : ℚ
  contentLength : ℚ
deriving DecidableEq, Repr

/-- Model of `imageDownloadBegin` (lines 41–43). -/
def imageDownloadBegin (s : ComponentState) (jobId : Nat) : ComponentState :=
  {s with downloading := true, jobId := some jobId}

/-- Model of `imageDownloadProgress` (lines 45–49): clears the downloading
flag and the job id exactly when `contentLength / bytesWritten == 1`. -/
def imageDownloadProgress (s : ComponentState) (info : ProgressInfo) :
    ComponentState :=
  if info.contentLength / info.bytesWritten = 1 then
    {s with downloading := false, jobId := none}
  else s

/-- Events that can reach a mounted component.  `netFetched` is the resolution
of the initial `NetInfo.isConnected.fetch()` in `componentWillMount` (lines
161–163); `netChanged` is `_handleConnectivityChange` (lines 176–180); the
remaining events are the download callbacks and a completed
`checkImageCache` resolution. -/
inductive Event where
  | netFetched (b : Bool)
  | netChanged (b : Bool)
  | beginDl (jobId : Nat)
  | progress (info : ProgressInfo)
  | cacheResolved (baseDir : String) (env : CacheEnv) (uri cachePath key : String)

/-- Whether an event is a connectivity callback. -/
def Event.isNet : Event → Bool
  | .netFetched _ => true
  | .netChanged _ => true
  | _ => false

/-- State transition of one event. -/
def step (s : ComponentState) : Event → ComponentState
  | .netFetched b => {s with networkAvailable := b}
  | .netChanged b => {s with networkAvailable := b}
  | .beginDl j => imageDownloadBegin s j
  | .progress info => imageDownloadProgress s info
  | .cacheResolved baseDir env uri cachePath key =>
      (checkImageCache baseDir env s uri cachePath key).1

/-- Concatenation of a list of strings, in order. -/
def concatAll : List String → String
  | [] => ""
  | s :: rest => s ++ concatAll rest

/-! Helper lemmas. -/

theorem string_append_left_cancel {s t u : String} (h : s ++ t = s ++ u) :
    t = u := by
  apply String.ext
  have h2 := congrArg String.data h
  rw [String.data_append, String.data_append] at h2
  exact List.append_cancel_left h2

theorem string_append_right_cancel {s t u : String} (h : t ++ s = u ++ s) :
    t = u := by
  apply String.ext
  have h2 := congrArg String.data h
  rw [String.data_append, String.data_append] at h2
  exact List.append_cancel_right h2

theorem concatAll_length (ss : List String) :
    (concatAll ss).length = (ss.map String.length).sum := by
  induction ss with
  | nil => rfl
  | cons s rest ih => simp [concatAll, String.length_append, ih]

/-- The `names` policy builds the pathname followed by the values of the
listed names present in the query, in list order. -/
theorem cacheableString_names (url : ParsedUrl) (l : List String) :
    cacheableString url (.names l) =
      url.pathname ++ concatAll (l.filterMap (queryLookup url.query)) := by
  suffices h : ∀ (l : List String) (acc : String),
      l.foldl (fun acc k => match queryLookup url.query k with
        | some v => acc ++ v
        | none => acc) acc
      = acc ++ concatAll (l.filterMap (queryLookup url.query)) by
    simpa [cacheableString] using h l url.pathname
  intro l
  induction l with
  | nil =>
      intro acc
      simp [concatAll, String.append_empty]
  | cons k rest ih =>
      intro acc
      cases hq : queryLookup url.query k with
      | none => simp [List.filterMap_cons, hq, ih]
      | some v =>
          simp [List.filterMap_cons, hq, ih, concatAll, String.append_assoc]

theorem cacheKeyOf_congr {u1 u2 : ParsedUrl} {p : QueryKeyPolicy}
    (h1 : cacheableString u1 p = cacheableString u2 p)
    (h2 : u1.pathname = u2.pathname) : cacheKeyOf u1 p = cacheKeyOf u2 p := by
  simp only [cacheKeyOf, h1, h2]

theorem cacheKeyOf_ne_of_hash_ne {u1 u2 : ParsedUrl} {p : QueryKeyPolicy}
    (hpath : u1.pathname = u2.pathname)
    (hhash : sha1Hex (cacheableString u1 p) ≠ sha1Hex (cacheableString u2 p)) :
    cacheKeyOf u1 p ≠ cacheKeyOf u2 p := by
  intro heq
  simp only [cacheKeyOf, hpath] at heq
  exact hhash (string_append_right_cancel (string_append_right_cancel heq))

theorem filterMap_congr_of_agree {f g : String → Option String}
    (L : List String) (h : ∀ n ∈ L, f n = g n) :
    L.filterMap f = L.filterMap g := by
  induction L with
  | nil => rfl
  | cons n rest ih =>
      have hn := h n (List.mem_cons_self _ _)
      have hrest := ih (fun m hm => h m (List.mem_cons_of_mem _ hm))
      simp [List.filterMap_cons, hn, hrest]

theorem filterMap_len_count (f g : String → Option String) (k v1 v2 : String)
    (hf : f k = some v1) (hg : g k = some v2) (L : List String)
    (hL : ∀ n ∈ L, n ≠ k → f n = g n) :
    ((L.filterMap f).map String.length).sum + L.count k * v2.length =
      ((L.filterMap g).map String.length).sum + L.count k * v1.length := by
  induction L with
  | nil => simp
  | cons n rest ih =>
      have hrest : ∀ m ∈ rest, m ≠ k → f m = g m :=
        fun m hm => hL m (List.mem_cons_of_mem _ hm)
      have ihr := ih hrest
      by_cases hnk : n = k
      · subst hnk
        simp only [List.filterMap_cons, hf, hg, List.map_cons, List.sum_cons,
          List.count_cons_self, Nat.succ_mul]
        omega
      · have hfg : f n = g n := hL n (List.mem_cons_self _ _) hnk
        have hcnt : (n :: rest).count k = rest.count k := by
          simp [List.count_cons, hnk]
        cases hfn : f n with
        | none =>
            rw [hfn] at hfg
            simp only [List.filterMap_cons, hfn, ← hfg, hcnt]
            exact ihr
        | some w =>
            rw [hfn] at hfg
            simp only [List.filterMap_cons, hfn, ← hfg, hcnt, List.map_cons,
              List.sum_cons]
            omega

theorem concatAll_filterMap_inj (f g : String → Option String)
    (k v1 v2 : String) (hf : f k = some v1) (hg : g k = some v2)
    (hlen : v1.length = v2.length) :
    ∀ L : List String, k ∈ L → (∀ n ∈ L, n ≠ k → f n = g n) →
      concatAll (L.filterMap f) = concatAll (L.filterMap g) → v1 = v2 := by
  intro L
  induction L with
  | nil => intro h; cases h
  | cons n rest ih =>
      intro hmem hagree heq
      by_cases hnk : n = k
      · subst hnk
        simp only [List.filterMap_cons, hf, hg, concatAll] at heq
        have hdata := congrArg String.data heq
        rw [String.data_append, String.data_append] at hdata
        have hlen' : v1.data.length = v2.data.length := hlen
        exact String.ext (List.append_inj hdata hlen').1
      · have hmem' : k ∈ rest := by
          cases List.mem_cons.mp hmem with
          | inl h => exact absurd h.symm hnk
          | inr h => exact h
        have hrest : ∀ m ∈ rest, m ≠ k → f m = g m :=
          fun m hm => hagree m (List.mem_cons_of_mem _ hm)
        have hn : f n = g n := hagree n (List.mem_cons_self _ _) hnk
        cases hfn : f n with
        | none =>
            rw [hfn] at hn
            simp only [List.filterMap_cons, hfn, ← hn] at heq
            exact ih hmem' hrest heq
        | some w =>
            rw [hfn] at hn
            simp only [List.filterMap_cons, hfn, ← hn, concatAll] at heq
            exact ih hmem' hrest (string_append_left_cancel heq)

/-- Two queries that agree except on a listed name `k`, where their values
differ, give different identity strings. -/
theorem cacheableString_names_ne (host path : String)
    (q1 q2 : List (String × String)) (L : List String) (k v1 v2 : String)
    (hkL : k ∈ L)
    (hagree : ∀ n, n ≠ k → queryLookup q1 n = queryLookup q2 n)
    (h1 : queryLookup q1 k = some v1) (h2 : queryLookup q2 k = some v2)
    (hne : v1 ≠ v2) :
    cacheableString ⟨host, path, q1⟩ (.names L) ≠
      cacheableString ⟨host, path, q2⟩ (.names L) := by
  intro heq
  rw [cacheableString_names, cacheableString_names] at heq
  have hC := string_append_left_cancel heq
  have hlen := congrArg String.length hC
  rw [concatAll_length, concatAll_length] at hlen
  have hcnt := filterMap_len_count (queryLookup q1) (queryLookup q2) k v1 v2
    h1 h2 L (fun n _ hn => hagree n hn)
  rw [hlen] at hcnt
  have hmul : L.count k * v2.length = L.count k * v1.length :=
    Nat.add_left_cancel hcnt
  have hcpos : 0 < L.count k := List.count_pos_iff.mpr hkL
  have hv : v1.length = v2.length :=
    (Nat.eq_of_mul_eq_mul_left hcpos hmul).symm
  exact hne (concatAll_filterMap_inj (queryLookup q1) (queryLookup q2) k v1 v2
    h1 h2 hv L hkL (fun n _ hn => hagree n hn) hC)

/-- Claim C2: the claim says that under the "include all query parameters"
policy the identity string is the path with the full query string appended, so
keys differ for same-path locators with different non-empty queries.  The code
instead appends the string coercion of the parsed query object, the constant
`[object Object]`, so two locators with the same path and different non-empty
query strings get the same identity string and the same cache key. -/
theorem claim_C2 :
    (parseUrl "https://cdn.example.com/img/photo.JPG?v=1").query ≠
        (parseUrl "https://cdn.example.com/img/photo.JPG?v=2").query ∧
    cacheableString (parseUrl "https://cdn.example.com/img/photo.JPG?v=1")
        (.flag true) = "/img/photo.JPG[object Object]" ∧
    cacheableString (parseUrl "https://cdn.example.com/img/photo.JPG?v=2")
        (.flag true) = "/img/photo.JPG[object Object]" ∧
    cacheKeyOf (parseUrl "https://cdn.example.com/img/photo.JPG?v=1")
        (.flag true) =
      cacheKeyOf (parseUrl "https://cdn.example.com/img/photo.JPG?v=2")
        (.flag true) := by
  refine ⟨by decide, by decide, by decide,
    cacheKeyOf_congr (by decide) (by decide)⟩

/-- Claim C4: two locators that differ only in a query parameter whose name is
not in the named-include list get identical cache keys; two locators that
differ only in the value of a parameter whose name is in the list get
different identity strings, hence different cache keys barring a hash
collision on the two identity strings. -/
theorem claim_C4 :
    (∀ (host path : String) (q1 q2 : List (String × String))
        (L : List String) (m : String),
        m ∉ L → (∀ n, n ≠ m → queryLookup q1 n = queryLookup q2 n) →
        cacheKeyOf ⟨host, path, q1⟩ (.names L) =
          cacheKeyOf ⟨host, path, q2⟩ (.names L)) ∧
    (∀ (host path : String) (q1 q2 : List (String × String))
        (L : List String) (k v1 v2 : String),
        k ∈ L → (∀ n, n ≠ k → queryLookup q1 n = queryLookup q2 n) →
        queryLookup q1 k = some v1 → queryLookup q2 k = some v2 → v1 ≠ v2 →
        cacheableString ⟨host, path, q1⟩ (.names L) ≠
            cacheableString ⟨host, path, q2⟩ (.names L) ∧
        (sha1Hex (cacheableString ⟨host, path, q1⟩ (.names L)) ≠
            sha1Hex (cacheableString ⟨host, path, q2⟩ (.names L)) →
          cacheKeyOf ⟨host, path, q1⟩ (.names L) ≠
            cacheKeyOf ⟨host, path, q2⟩ (.names L))) := by
  constructor
  · intro host path q1 q2 L m hmL hagree
    have hag : ∀ n ∈ L, queryLookup q1 n = queryLookup q2 n := by
      intro n hn
      exact hagree n (fun hEq => hmL (hEq ▸ hn))
    have h1 : cacheableString ⟨host, path, q1⟩ (.names L) =
        cacheableString ⟨host, path, q2⟩ (.names L) := by
      rw [cacheableString_names, cacheableString_names,
        filterMap_congr_of_agree L hag]
    exact cacheKeyOf_congr h1 rfl
  · intro host path q1 q2 L k v1 v2 hkL hagree h1 h2 hne
    exact ⟨cacheableString_names_ne host path q1 q2 L k v1 v2 hkL hagree
        h1 h2 hne,
      fun hhash => cacheKeyOf_ne_of_hash_ne rfl hhash⟩

/-- Witness for C4 at concrete locators: changing the unlisted parameter `a`
keeps the key; changing the listed parameter `v` changes it. -/
theorem claim_C4_witness :
    cacheKeyOf ⟨"h", "/p", [("a", "1"), ("v", "x")]⟩ (.names ["v"]) =
        cacheKeyOf ⟨"h", "/p", [("a", "2"), ("v", "x")]⟩ (.names ["v"]) ∧
    cacheKeyOf ⟨"h", "/p", [("v", "1")]⟩ (.names ["v"]) ≠
        cacheKeyOf ⟨"h", "/p", [("v", "2")]⟩ (.names ["v"]) := by
  constructor
  · exact claim_C4.1 "h" "/p" [("a", "1"), ("v", "x")] [("a", "2"), ("v", "x")]
      ["v"] "a" (by decide)
      (by
        intro n hn
        have hb : (("a" : String) == n) = false :=
          beq_eq_false_iff_ne.mpr (fun h => hn h.symm)
        simp [queryLookup, List.find?, hb])
  · exact (claim_C4.2 "h" "/p" [("v", "1")] [("v", "2")] ["v"] "v" "1" "2"
        (by decide)
        (by
          intro n hn
          have hb : (("v" : String) == n) = false :=
            beq_eq_false_iff_ne.mpr (fun h => hn h.symm)
          simp [queryLookup, List.find?, hb])
        (by decide) (by decide) (by decide)).2
      (by set_option maxRecDepth 10000 in decide)

/-- On a cache miss with the network flag down, the resolution is the
Unavailable report and nothing else. -/
theorem checkImageCache_miss_no_network (baseDir : String) (env : CacheEnv)
    (s : ComponentState) (u c k : String) (hstat : env.stat = .missing)
    (hnet : s.networkAvailable = false) :
    checkImageCache baseDir env s u c k =
      ({s with cacheable := false, cachedImagePath := none},
       [.setStateP false none]) := by
  simp [checkImageCache, hstat, hnet]

/-- Claim C1: the claim says that on a miss with network available, after
mkdir, a previous cacheable entry's file is deleted and a download to the new
path starts, succeeding to the Cached state.  The code instead calls the
undefined method `this.deleteFilePath` (the class defines `_deleteFilePath`),
so the TypeError rejects the chain: the mkdir `.catch` deletes the new (still
absent) path, reports Unavailable, the old file survives, and no download
starts.  This theorem evaluates the model at exactly that failing input. -/
theorem claim_C1 :
    checkImageCache "/docs" ⟨.missing, .ok, .ok⟩
        { isRemote := true, cachedImagePath := some "/docs/host/oldkey",
          downloading := false, cacheable := true, jobId := none,
          networkAvailable := true }
        "https://host/new.png" "host" "newkey" =
      ({ isRemote := true, cachedImagePath := none, downloading := false,
         cacheable := false, jobId := none, networkAvailable := true },
       [.mkdir "/docs/host", .deleteFile "/docs/host/newkey",
        .setStateP false none]) ∧
    (∀ e ∈ (checkImageCache "/docs" ⟨.missing, .ok, .ok⟩
        { isRemote := true, cachedImagePath := some "/docs/host/oldkey",
          downloading := false, cacheable := true, jobId := none,
          networkAvailable := true }
        "https://host/new.png" "host" "newkey").2,
      e.isDownloadStart = false) ∧
    Effect.deleteFile "/docs/host/oldkey" ∉
      (checkImageCache "/docs" ⟨.missing, .ok, .ok⟩
        { isRemote := true, cachedImagePath := some "/docs/host/oldkey",
          downloading := false, cacheable := true, jobId := none,
          networkAvailable := true }
        "https://host/new.png" "host" "newkey").2 := by
  refine ⟨by decide, by decide, by decide⟩

/-- Claim C5: a cache miss with the network unavailable reports Unavailable
(cacheable false, no path) and issues neither a mkdir nor a download. -/
theorem claim_C5 (baseDir : String) (env : CacheEnv) (s : ComponentState)
    (u c k : String) (hstat : env.stat = .missing)
    (hnet : s.networkAvailable = false) :
    checkImageCache baseDir env s u c k =
      ({s with cacheable := false, cachedImagePath := none},
       [.setStateP false none]) ∧
    ∀ e ∈ (checkImageCache baseDir env s u c k).2,
      e.isMkdir = false ∧ e.isDownloadStart = false := by
  have h := checkImageCache_miss_no_network baseDir env s u c k hstat hnet
  refine ⟨h, ?_⟩
  rw [h]
  intro e he
  rw [List.mem_singleton.mp he]
  exact ⟨rfl, rfl⟩

/-- Witness for C5 at a concrete miss without network. -/
theorem claim_C5_witness :
    checkImageCache "/docs" ⟨.missing, .ok, .ok⟩ initialState
        "https://host/a.png" "host" "key" =
      ({initialState with cacheable := false, cachedImagePath := none},
       [.setStateP false none]) :=
  (claim_C5 "/docs" ⟨.missing, .ok, .ok⟩ initialState
    "https://host/a.png" "host" "key" rfl rfl).1

/-- Claim C6: when the stat resolves to a regular file, the state becomes
Cached at the derived path and the download transport is never invoked. -/
theorem claim_C6 (baseDir : String) (env : CacheEnv) (s : ComponentState)
    (u c k : String) (hstat : env.stat = .file) :
    checkImageCache baseDir env s u c k =
      ({s with
          cacheable := true
          cachedImagePath := some (baseDir ++ "/" ++ c ++ "/" ++ k)},
       [.setStateP true (some (baseDir ++ "/" ++ c ++ "/" ++ k))]) ∧
    ∀ e ∈ (checkImageCache baseDir env s u c k).2,
      e.isDownloadStart = false := by
  have h : checkImageCache baseDir env s u c k =
      ({s with
          cacheable := true
          cachedImagePath := some (baseDir ++ "/" ++ c ++ "/" ++ k)},
       [.setStateP true (some (baseDir ++ "/" ++ c ++ "/" ++ k))]) := by
    simp [checkImageCache, hstat]
  refine ⟨h, ?_⟩
  rw [h]
  intro e he
  rw [List.mem_singleton.mp he]
  rfl

/-- Witness for C6 at a concrete hit. -/
theorem claim_C6_witness :
    checkImageCache "/docs" ⟨.file, .ok, .ok⟩ initialState
        "https://host/a.png" "host" "key" =
      ({initialState with
          cacheable := true
          cachedImagePath := some ("/docs" ++ "/" ++ "host" ++ "/" ++ "key")},
       [.setStateP true (some ("/docs" ++ "/" ++ "host" ++ "/" ++ "key"))]) :=
  (claim_C6 "/docs" ⟨.file, .ok, .ok⟩ initialState
    "https://host/a.png" "host" "key" rfl).1

/-- Claim C7: when the download fails, the destination file is deleted before
the Unavailable report (the trace runs mkdir, download, delete, report), and
`_deleteFilePath` checks existence first, swallows unlink failures, and leaves
no file at the destination when the unlink succeeds. -/
theorem claim_C7 (baseDir : String) (env : CacheEnv) (s : ComponentState)
    (u c k : String) (hstat : env.stat = .missing)
    (hnet : s.networkAvailable = true)
    (hprev : (s.cacheable && jsTruthy s.cachedImagePath) = false)
    (hmk : env.mkdirResult = .ok) (hdl : env.downloadResult = .error) :
    checkImageCache baseDir env s u c k =
      ({s with cacheable := false, cachedImagePath := none},
       [.mkdir (baseDir ++ "/" ++ c),
        .downloadStart u (baseDir ++ "/" ++ c ++ "/" ++ k),
        .deleteFile (baseDir ++ "/" ++ c ++ "/" ++ k),
        .setStateP false none]) ∧
    (∀ (fs : String → Bool) (ur : IOResult),
        (deleteFilePathFs fs ur (baseDir ++ "/" ++ c ++ "/" ++ k)).2 = false) ∧
    (∀ (fs : String → Bool) (ur : IOResult),
        fs (baseDir ++ "/" ++ c ++ "/" ++ k) = false →
        (deleteFilePathFs fs ur (baseDir ++ "/" ++ c ++ "/" ++ k)).1 = fs) ∧
    (∀ fs : String → Bool,
        (deleteFilePathFs fs .ok (baseDir ++ "/" ++ c ++ "/" ++ k)).1
          (baseDir ++ "/" ++ c ++ "/" ++ k) = false) := by
  refine ⟨by simp [checkImageCache, hstat, hnet, hprev, hmk, hdl], ?_, ?_, ?_⟩
  · intro fs ur
    unfold deleteFilePathFs
    by_cases hf : fs (baseDir ++ "/" ++ c ++ "/" ++ k)
    · rw [if_pos hf]
      cases ur <;> rfl
    · rw [if_neg hf]
  · intro fs ur hf
    unfold deleteFilePathFs
    rw [hf]
    simp
  · intro fs
    unfold deleteFilePathFs
    by_cases hf : fs (baseDir ++ "/" ++ c ++ "/" ++ k)
    · rw [if_pos hf]
      simp
    · rw [if_neg hf]
      simpa using hf

/-- Witness for C7 at a concrete failed download. -/
theorem claim_C7_witness :
    checkImageCache "/docs" ⟨.missing, .ok, .error⟩
        {initialState with networkAvailable := true}
        "https://host/a.png" "host" "key" =
      ({initialState with
          networkAvailable := true
          cacheable := false
          cachedImagePath := none},
       [.mkdir ("/docs" ++ "/" ++ "host"),
        .downloadStart "https://host/a.png"
          ("/docs" ++ "/" ++ "host" ++ "/" ++ "key"),
        .deleteFile ("/docs" ++ "/" ++ "host" ++ "/" ++ "key"),
        .setStateP false none]) ∧
    (deleteFilePathFs (fun p => p = "/docs/host/key") .ok
        ("/docs" ++ "/" ++ "host" ++ "/" ++ "key")).1
      ("/docs" ++ "/" ++ "host" ++ "/" ++ "key") = false := by
  have h := claim_C7 "/docs" ⟨.missing, .ok, .error⟩
    {initialState with networkAvailable := true}
    "https://host/a.png" "host" "key" rfl rfl rfl rfl rfl
  exact ⟨h.1, h.2.2.2 (fun p => p = "/docs/host/key")⟩

/-- Counterexample to C3 as stated: at a progress observation with
`bytesWritten = contentLength = 0` the two counts are equal, yet the code's
test `contentLength / bytesWritten == 1` does not hold (`0 / 0` is `NaN` in
JavaScript and `0` in this model, unequal to `1` either way), so the
downloading flag is not cleared. -/
theorem claim_C3_counterexample :
    (ProgressInfo.mk 0 0).bytesWritten = (ProgressInfo.mk 0 0).contentLength ∧
    (imageDownloadProgress
        {initialState with downloading := true, jobId := some 7}
        (ProgressInfo.mk 0 0)).downloading = true ∧
    (imageDownloadProgress
        {initialState with downloading := true, jobId := some 7}
        (ProgressInfo.mk 0 0)).jobId = some 7 := by
  refine ⟨rfl, ?_, ?_⟩ <;>
    simp [imageDownloadProgress, zero_div]

/-- Claim C3 (amended): a progress observation clears the downloading flag and
the remembered job id exactly when `bytesWritten` equals `contentLength` and
the counts are nonzero; a progress observation never touches the Cached
resolution fields, which only the terminal success callback of
`checkImageCache` sets. -/
theorem claim_C3 :
    (∀ (s : ComponentState) (info : ProgressInfo),
        imageDownloadProgress s info =
          if info.bytesWritten = info.contentLength ∧ info.bytesWritten ≠ 0 then
            {s with downloading := false, jobId := none}
          else s) ∧
    (∀ (s : ComponentState) (info : ProgressInfo),
        (imageDownloadProgress s info).cacheable = s.cacheable ∧
        (imageDownloadProgress s info).cachedImagePath = s.cachedImagePath) ∧
    (∀ (baseDir : String) (env : CacheEnv) (s : ComponentState)
        (u c k : String),
        env.stat = .missing → s.networkAvailable = true →
        (s.cacheable && jsTruthy s.cachedImagePath) = false →
        env.mkdirResult = .ok → env.downloadResult = .ok →
        (checkImageCache baseDir env s u c k).1.cacheable = true ∧
        (checkImageCache baseDir env s u c k).1.cachedImagePath =
          some (baseDir ++ "/" ++ c ++ "/" ++ k)) := by
  refine ⟨?_, ?_, ?_⟩
  · intro s info
    unfold imageDownloadProgress
    by_cases hb : info.bytesWritten = 0
    · rw [hb, div_zero]
      simp [hb]
    · exact if_congr
        ⟨fun h => ⟨((div_eq_one_iff_eq hb).mp h).symm, hb⟩,
         fun h => (div_eq_one_iff_eq hb).mpr h.1.symm⟩ rfl rfl
  · intro s info
    unfold imageDownloadProgress
    by_cases h : info.contentLength / info.bytesWritten = 1
    · rw [if_pos h]
      exact ⟨rfl, rfl⟩
    · rw [if_neg h]
      exact ⟨rfl, rfl⟩
  · intro baseDir env s u c k hstat hnet hprev hmk hdl
    constructor <;> simp [checkImageCache, hstat, hnet, hprev, hmk, hdl]

/-- Witness for C3 at concrete observations: equal nonzero counts clear the
flag, and a concrete successful download sets the Cached path. -/
theorem claim_C3_witness :
    imageDownloadProgress
        {initialState with downloading := true, jobId := some 5}
        (ProgressInfo.mk 7 7) =
      {initialState with downloading := false, jobId := none} ∧
    (imageDownloadProgress initialState (ProgressInfo.mk 3 9)).cacheable =
      initialState.cacheable ∧
    (checkImageCache "/d" ⟨.missing, .ok, .ok⟩
        {initialState with networkAvailable := true} "u" "h" "k").1.cachedImagePath =
      some ("/d" ++ "/" ++ "h" ++ "/" ++ "k") := by
  refine ⟨?_, ?_, ?_⟩
  · rw [claim_C3.1 {initialState with downloading := true, jobId := some 5}
      (ProgressInfo.mk 7 7)]
    norm_num
  · exact (claim_C3.2.1 initialState (ProgressInfo.mk 3 9)).1
  · exact (claim_C3.2.2 "/d" ⟨.missing, .ok, .ok⟩
      {initialState with networkAvailable := true} "u" "h" "k"
      rfl rfl rfl rfl rfl).2

/-- Counterexample to C9 as stated: when the derived path exists but is a
directory, the miss path does not proceed.  The stat promise resolves,
`res.isFile()` is false, the `then` branch does nothing, and the `catch`
(holding the network check, mkdir and download) never runs: the state is left
untouched, unlike the genuinely absent file at the same state, which reports
Unavailable. -/
theorem claim_C9_counterexample :
    checkImageCache "/docs" ⟨.dir, .ok, .ok⟩
        { isRemote := true, cachedImagePath := some "/docs/host/stale",
          downloading := false, cacheable := true, jobId := none,
          networkAvailable := false }
        "u" "host" "key" =
      ({ isRemote := true, cachedImagePath := some "/docs/host/stale",
         downloading := false, cacheable := true, jobId := none,
         networkAvailable := false }, []) ∧
    checkImageCache "/docs" ⟨.missing, .ok, .ok⟩
        { isRemote := true, cachedImagePath := some "/docs/host/stale",
          downloading := false, cacheable := true, jobId := none,
          networkAvailable := false }
        "u" "host" "key" =
      ({ isRemote := true, cachedImagePath := none, downloading := false,
         cacheable := false, jobId := none, networkAvailable := false },
       [.setStateP false none]) := by
  exact ⟨by decide, by decide⟩

/-- Claim C9 (amended): the lookup reports a hit — a lone
`setState({cacheable: true, cachedImagePath: filePath})` with no other
effect — exactly when the stat resolves to a regular file; when the path
exists but is a directory, neither the hit state is set nor does the miss
path run: the state is unchanged and no effect at all is issued. -/
theorem claim_C9 (baseDir : String) (env : CacheEnv) (s : ComponentState)
    (u c k : String) :
    ((checkImageCache baseDir env s u c k).2 =
        [.setStateP true (some (baseDir ++ "/" ++ c ++ "/" ++ k))] ↔
      env.stat = .file) ∧
    (env.stat = .dir → checkImageCache baseDir env s u c k = (s, [])) := by
  constructor
  · constructor
    · intro htr
      rcases env with ⟨st, mk, dl⟩
      cases st with
      | file => rfl
      | dir => simp [checkImageCache] at htr
      | missing =>
          exfalso
          cases hn : s.networkAvailable <;> cases mk <;> cases dl <;>
            cases hprev : (s.cacheable && jsTruthy s.cachedImagePath) <;>
            simp [checkImageCache, hn, hprev] at htr
    · intro hstat
      simp [checkImageCache, hstat]
  · intro hstat
    simp [checkImageCache, hstat]

/-- Witness for C9 at a concrete directory collision and a concrete hit. -/
theorem claim_C9_witness :
    checkImageCache "/docs" ⟨.dir, .ok, .ok⟩ initialState "u" "h" "k" =
      (initialState, []) ∧
    (checkImageCache "/docs" ⟨.file, .ok, .ok⟩ initialState "u" "h" "k").2 =
      [.setStateP true (some ("/docs" ++ "/" ++ "h" ++ "/" ++ "k"))] := by
  constructor
  · exact (claim_C9 "/docs" ⟨.dir, .ok, .ok⟩ initialState "u" "h" "k").2 rfl
  · exact (claim_C9 "/docs" ⟨.file, .ok, .ok⟩ initialState "u" "h" "k").1.mpr rfl

/-- Resolution reached by `checkImageCache` never changes the network flag. -/
theorem checkImageCache_networkAvailable (baseDir : String) (env : CacheEnv)
    (s : ComponentState) (u c k : String) :
    (checkImageCache baseDir env s u c k).1.networkAvailable =
      s.networkAvailable := by
  rcases env with ⟨st, mk, dl⟩
  cases st <;>
    cases hn : s.networkAvailable <;> cases mk <;> cases dl <;>
    cases hprev : (s.cacheable && jsTruthy s.cachedImagePath) <;>
    simp [checkImageCache, hn, hprev]

/-- Events other than the connectivity callbacks never change the network
flag. -/
theorem step_networkAvailable (s : ComponentState) (e : Event)
    (h : e.isNet = false) :
    (step s e).networkAvailable = s.networkAvailable := by
  cases e with
  | netFetched b => simp [Event.isNet] at h
  | netChanged b => simp [Event.isNet] at h
  | beginDl j => rfl
  | progress info =>
      show (imageDownloadProgress s info).networkAvailable = s.networkAvailable
      unfold imageDownloadProgress
      by_cases hc : info.contentLength / info.bytesWritten = 1
      · rw [if_pos hc]
      · rw [if_neg hc]
  | cacheResolved bd env u c k => exact checkImageCache_networkAvailable bd env s u c k

/-- Folding any run of non-connectivity events keeps the network flag. -/
theorem foldl_step_networkAvailable (evs : List Event) :
    ∀ s : ComponentState, (∀ e ∈ evs, e.isNet = false) →
      (evs.foldl step s).networkAvailable = s.networkAvailable := by
  induction evs with
  | nil => intro s _; rfl
  | cons e rest ih =>
      intro s h
      rw [List.foldl_cons,
        ih _ (fun x hx => h x (List.mem_cons_of_mem _ hx)),
        step_networkAvailable s e (h e (List.mem_cons_self _ _))]

/-- Claim C10: the network flag starts false and only the connectivity
callbacks (`netFetched` from the initial fetch, `netChanged` from the change
listener) can raise it, so a miss resolved before any connectivity callback
reports Unavailable without directory creation or a download — whatever the
actual connectivity. -/
theorem claim_C10 :
    initialState.networkAvailable = false ∧
    (∀ evs : List Event, (∀ e ∈ evs, e.isNet = false) →
        (evs.foldl step initialState).networkAvailable = false) ∧
    (∀ (baseDir : String) (env : CacheEnv) (s : ComponentState)
        (u c k : String),
        env.stat = .missing → s.networkAvailable = false →
        checkImageCache baseDir env s u c k =
          ({s with cacheable := false, cachedImagePath := none},
           [.setStateP false none]) ∧
        ∀ e ∈ (checkImageCache baseDir env s u c k).2,
          e.isMkdir = false ∧ e.isDownloadStart = false) := by
  refine ⟨rfl, ?_, ?_⟩
  · intro evs h
    exact foldl_step_networkAvailable evs initialState h
  · intro baseDir env s u c k hstat hnet
    have h := checkImageCache_miss_no_network baseDir env s u c k hstat hnet
    refine ⟨h, ?_⟩
    rw [h]
    intro e he
    rw [List.mem_singleton.mp he]
    exact ⟨rfl, rfl⟩

/-- Witness for C10: a concrete run containing a download-begin and a progress
event, but no connectivity callback, keeps the flag down, and its miss
resolution is Unavailable. -/
theorem claim_C10_witness :
    ([Event.beginDl 3, Event.progress (ProgressInfo.mk 4 9)].foldl step
        initialState).networkAvailable = false ∧
    checkImageCache "/docs" ⟨.missing, .ok, .ok⟩ initialState "u" "h" "k" =
      ({initialState with cacheable := false, cachedImagePath := none},
       [.setStateP false none]) := by
  refine ⟨?_, ?_⟩
  · exact claim_C10.2.1 [Event.beginDl 3, Event.progress (ProgressInfo.mk 4 9)]
      (by
        intro e he
        rcases List.mem_cons.mp he with rfl | he2
        · rfl
        · rcases List.mem_cons.mp he2 with rfl | he3
          · rfl
          · cases he3)
  · exact (claim_C10.2.2 "/docs" ⟨.missing, .ok, .ok⟩ initialState
      "u" "h" "k" rfl rfl).1

theorem hex8_length (n : Nat) : (hex8 n).length = 8 := by
  show ((List.range 8).map _).length = 8
  simp

theorem hexDigit_mem (n : Nat) (h : n < 16) :
    hexDigit n ∈ ("0123456789abcdef").data := by
  interval_cases n <;> decide

theorem hex8_digits (n : Nat) :
    ∀ c ∈ (hex8 n).data, c ∈ ("0123456789abcdef").data := by
  intro c hc
  rcases List.mem_map.mp hc with ⟨i, _, rfl⟩
  exact hexDigit_mem _ (Nat.mod_lt _ (by norm_num))

theorem sha1Hex_length (s : String) : (sha1Hex s).length = 40 := by
  show (hex8 _ ++ hex8 _ ++ hex8 _ ++ hex8 _ ++ hex8 _).length = 40
  simp [String.length_append, hex8_length]

theorem sha1Hex_digits (s : String) :
    ∀ c ∈ (sha1Hex s).data, c ∈ ("0123456789abcdef").data := by
  intro c hc
  have hc2 : c ∈ (hex8 ((toBlocks (sha1Padded (stringBytes s))).foldl
        sha1Block sha1Init).h0 ++
      hex8 ((toBlocks (sha1Padded (stringBytes s))).foldl sha1Block sha1Init).h1 ++
      hex8 ((toBlocks (sha1Padded (stringBytes s))).foldl sha1Block sha1Init).h2 ++
      hex8 ((toBlocks (sha1Padded (stringBytes s))).foldl sha1Block sha1Init).h3 ++
      hex8 ((toBlocks (sha1Padded (stringBytes s))).foldl sha1Block sha1Init).h4).data :=
    hc
  simp only [String.data_append, List.mem_append] at hc2
  rcases hc2 with ((((h | h) | h) | h) | h) <;> exact hex8_digits _ c h

theorem afterLastDot_none : ∀ {cs : List Char}, afterLastDot cs = none →
    '.' ∉ cs := by
  intro cs
  induction cs with
  | nil => intro _ h; cases h
  | cons c rest ih =>
      intro h hmem
      rw [afterLastDot] at h
      cases hr : afterLastDot rest with
      | some r => rw [hr] at h; cases h
      | none =>
          rw [hr] at h
          by_cases hc : c = '.'
          · rw [if_pos hc] at h; cases h
          · rcases List.mem_cons.mp hmem with h1 | h1
            · exact hc h1.symm
            · exact ih hr h1

theorem afterLastDot_some : ∀ {cs r : List Char}, afterLastDot cs = some r →
    ∃ pre, cs = pre ++ '.' :: r ∧ '.' ∉ r := by
  intro cs
  induction cs with
  | nil => intro r h; cases h
  | cons c rest ih =>
      intro r h
      rw [afterLastDot] at h
      cases hr : afterLastDot rest with
      | some r2 =>
          rw [hr] at h
          obtain rfl : r2 = r := by cases h; rfl
          obtain ⟨pre, hpre, hnr⟩ := ih hr
          exact ⟨c :: pre, by rw [hpre]; rfl, hnr⟩
      | none =>
          rw [hr] at h
          by_cases hc : c = '.'
          · rw [if_pos hc] at h
            obtain rfl : rest = r := by cases h; rfl
            subst hc
            exact ⟨[], rfl, afterLastDot_none hr⟩
          · rw [if_neg hc] at h; cases h

/-- Claim C8: the cache key is the 40-hex-digit SHA-1 digest of the identity
string, then a dot, then the extension — the part of the pathname after its
last dot when one exists (always shorter than the pathname, so the ternary
keeps it), and empty otherwise (leaving a trailing dot); the storage
directory is the host.  Instantiated on the spec's scenario locator
`https://cdn.example.com/img/photo.JPG?v=2` with the `none` policy. -/
theorem claim_C8 :
    (∀ s : String, (sha1Hex s).length = 40 ∧
        ∀ c ∈ (sha1Hex s).data, c ∈ ("0123456789abcdef").data) ∧
    (∀ (url : ParsedUrl) (policy : QueryKeyPolicy),
        ('.' ∉ url.pathname.data →
          cacheKeyOf url policy =
            sha1Hex (cacheableString url policy) ++ ".") ∧
        ('.' ∈ url.pathname.data →
          ∃ ext : String,
            cacheKeyOf url policy =
              sha1Hex (cacheableString url policy) ++ "." ++ ext ∧
            (∃ pre, url.pathname.data = pre ++ '.' :: ext.data) ∧
            '.' ∉ ext.data)) ∧
    processSourceArgs (.flag false) "https://cdn.example.com/img/photo.JPG?v=2" =
      ("https://cdn.example.com/img/photo.JPG?v=2", "cdn.example.com",
        sha1Hex "/img/photo.JPG" ++ ".JPG") ∧
    cacheableString (parseUrl "https://cdn.example.com/img/photo.JPG?v=2")
        (.flag false) = "/img/photo.JPG" ∧
    extType "/img/photo.JPG" = "JPG" ∧
    (parseUrl "https://cdn.example.com/img/photo.JPG?v=2").host =
      "cdn.example.com" := by
  have hkey : cacheKeyOf (parseUrl "https://cdn.example.com/img/photo.JPG?v=2")
      (.flag false) = sha1Hex "/img/photo.JPG" ++ ".JPG" := by
    have h1 : parseUrl "https://cdn.example.com/img/photo.JPG?v=2" =
        ⟨"cdn.example.com", "/img/photo.JPG", [("v", "2")]⟩ := by decide
    rw [h1]
    show sha1Hex "/img/photo.JPG" ++ "." ++
        (if (extType "/img/photo.JPG").length < ("/img/photo.JPG").length
         then extType "/img/photo.JPG" else "") =
      sha1Hex "/img/photo.JPG" ++ ".JPG"
    rw [if_pos (by decide), show extType "/img/photo.JPG" = "JPG" by decide,
      String.append_assoc]
    exact congrArg (fun t => sha1Hex "/img/photo.JPG" ++ t) (by decide)
  refine ⟨?_, ?_, ?_, by decide, by decide, by decide⟩
  · exact fun s => ⟨sha1Hex_length s, sha1Hex_digits s⟩
  · intro url policy
    constructor
    · intro hnd
      cases hr : afterLastDot url.pathname.data with
      | some r => exact absurd ((afterLastDot_some hr).choose_spec.1 ▸
          (List.mem_append.mpr (Or.inr (List.mem_cons_self _ _)))) hnd
      | none =>
          have ht : extType url.pathname = url.pathname := by
            unfold extType
            rw [hr]
          show sha1Hex _ ++ "." ++ _ = sha1Hex _ ++ "."
          rw [ht, if_neg (lt_irrefl _), String.append_empty]
    · intro hd
      cases hr : afterLastDot url.pathname.data with
      | none => exact absurd hd (afterLastDot_none hr)
      | some r =>
          obtain ⟨pre, hpre, hnr⟩ := afterLastDot_some hr
          have ht : extType url.pathname = String.mk r := by
            unfold extType
            rw [hr]
          refine ⟨String.mk r, ?_, ⟨pre, hpre⟩, hnr⟩
          show sha1Hex _ ++ "." ++ _ = sha1Hex _ ++ "." ++ String.mk r
          rw [ht, if_pos ?_]
          show r.length < url.pathname.data.length
          rw [hpre]
          simp only [List.length_append, List.length_cons]
          omega
  · show (_, (parseUrl _).host, cacheKeyOf (parseUrl _) (.flag false)) = _
    rw [hkey, show parseUrl "https://cdn.example.com/img/photo.JPG?v=2" =
      ⟨"cdn.example.com", "/img/photo.JPG", [("v", "2")]⟩ by decide]

/-- Witness for C8: a pathname without a dot yields the bare trailing-dot key,
and one with a dot yields its suffix as extension. -/
theorem claim_C8_witness :
    cacheKeyOf ⟨"h", "/nodot", []⟩ (.flag false) = sha1Hex "/nodot" ++ "." ∧
    (∃ ext : String,
        cacheKeyOf ⟨"h", "/a.b", []⟩ (.flag false) =
          sha1Hex "/a.b" ++ "." ++ ext ∧
        (∃ pre, ("/a.b" : String).data = pre ++ '.' :: ext.data) ∧
        '.' ∉ ext.data) := by
  constructor
  · exact (claim_C8.2.1 ⟨"h", "/nodot", []⟩ (.flag false)).1 (by decide)
  · exact (claim_C8.2.1 ⟨"h", "/a.b", []⟩ (.flag false)).2 (by decide)

end CacheableImage
